import Mathlib

/-!
Verification of the resume-screening engine (extraction and scoring core).

The Python source is shallowly embedded: strings are Lean Strings (lists of
characters), the regular-expression patterns of the extractor are embedded as
explicit, executable matchers with the same greedy/backtracking semantics on
the concrete patterns they implement, and all numeric scores are modelled as
rationals. Python's round(x, 1) (round half to even at one decimal place) is
modelled exactly by rheInt/round1 below.
-/

namespace ResumeScreening

/-! ### Character and string helpers -/

/-- Python's whitespace class (ASCII), as used by the re module's backslash-s
and by str.split with no separator. -/
def pyIsSpace (c : Char) : Bool :=
  c == ' ' || c == '\t' || c == '\n' || c == '\r' || c == '\x0b' || c == '\x0c'

/-- A regex word character (backslash-w over ASCII): letter, digit or underscore. -/
def isWordChar (c : Char) : Bool := c.isAlpha || c.isDigit || c == '_'

/-- Python str.strip with no argument: drop whitespace at both ends. -/
def pyStrip (s : String) : String :=
  String.mk (((s.toList.dropWhile pyIsSpace).reverse.dropWhile pyIsSpace).reverse)

/-- Python str.lower on our texts: lowercase every character. (Equal to
String.toLower, but stated as a list map so that the kernel can evaluate it.) -/
def lowerStr (s : String) : String := String.mk (s.toList.map Char.toLower)

/-- Contiguous-sublist test on character lists; this is Python's
substring operator for strings ("a in b"). -/
def isSubstrOf : List Char → List Char → Bool
  | p, [] => p.isEmpty
  | p, c :: rest => p.isPrefixOf (c :: rest) || isSubstrOf p rest

/-- Python's "a in b" on strings. -/
def pyIn (a b : String) : Bool := isSubstrOf a.toList b.toList

/-- Python str.split with no separator: maximal runs of non-whitespace. -/
def pyWordsAux (cur : List Char) : List Char → List String
  | [] => if cur.isEmpty then [] else [String.mk cur.reverse]
  | c :: rest =>
    if pyIsSpace c then
      if cur.isEmpty then pyWordsAux [] rest
      else String.mk cur.reverse :: pyWordsAux [] rest
    else pyWordsAux (c :: cur) rest

def pyWords (s : String) : List String := pyWordsAux [] s.toList

/-- The integer denoted by a nonempty list of decimal digits (Python int()). -/
def natOfDigits (ds : List Char) : ℕ :=
  ds.foldl (fun n c => n * 10 + (c.toNat - '0'.toNat)) 0

/-! ### Rounding: Python round(x, 1)

Python rounds half to even. On our rational model, round(x, 1) is
rheInt (x * 10) / 10 where rheInt rounds a rational to the nearest
integer, ties to the even integer. -/

/-- Round a rational to the nearest integer, ties to even (Python round). -/
def rheInt (q : ℚ) : ℤ :=
  if q - ⌊q⌋ = 1 / 2 then (if 2 ∣ ⌊q⌋ then ⌊q⌋ else ⌊q⌋ + 1) else round q

/-- Python round(x, 1) on the rational model. -/
def round1 (q : ℚ) : ℚ := ((rheInt (q * 10) : ℚ)) / 10

theorem floor_le_rheInt (q : ℚ) : ⌊q⌋ ≤ rheInt q := by
  unfold rheInt
  split_ifs with h h2
  · exact le_refl _
  · exact le_of_lt (lt_add_one _)
  · rw [round_eq]
    exact Int.floor_le_floor (by linarith)

theorem rheInt_le_ceil (q : ℚ) : rheInt q ≤ ⌈q⌉ := by
  unfold rheInt
  split_ifs with h h2
  · exact Int.floor_le_ceil q
  · have hlt : (⌊q⌋ : ℚ) < q := by linarith
    have hic : ⌊q⌋ < ⌈q⌉ := by
      have hq : q ≤ (⌈q⌉ : ℚ) := Int.le_ceil q
      exact_mod_cast lt_of_lt_of_le hlt hq
    omega
  · rw [round_eq]
    have hmono : ⌊q + 1 / 2⌋ ≤ ⌊(⌈q⌉ : ℚ) + 1 / 2⌋ :=
      Int.floor_le_floor (by linarith [Int.le_ceil q])
    have heval : ⌊(⌈q⌉ : ℚ) + 1 / 2⌋ = ⌈q⌉ := by
      rw [Int.floor_int_add]
      norm_num
    omega

theorem round1_nonneg {q : ℚ} (h : 0 ≤ q) : 0 ≤ round1 q := by
  unfold round1
  have hf : (0 : ℤ) ≤ ⌊q * 10⌋ := Int.floor_nonneg.mpr (by linarith)
  have hr : (0 : ℤ) ≤ rheInt (q * 10) := le_trans hf (floor_le_rheInt (q * 10))
  have : (0 : ℚ) ≤ (rheInt (q * 10) : ℚ) := by exact_mod_cast hr
  linarith

theorem round1_le_100 {q : ℚ} (h : q ≤ 100) : round1 q ≤ 100 := by
  unfold round1
  have hc : ⌈q * 10⌉ ≤ (1000 : ℤ) := Int.ceil_le.mpr (by push_cast; linarith)
  have hr : rheInt (q * 10) ≤ (1000 : ℤ) := le_trans (rheInt_le_ceil (q * 10)) hc
  have : (rheInt (q * 10) : ℚ) ≤ 1000 := by exact_mod_cast hr
  linarith

/-- Evaluation lemma for round1 away from ties: both hypotheses are closed
by norm_num on concrete rationals. -/
theorem round1_eval (q : ℚ) (z : ℤ) (h : q * 10 - ⌊q * 10⌋ ≠ 1 / 2)
    (h2 : ⌊q * 10 + 1 / 2⌋ = z) : round1 q = (z : ℚ) / 10 := by
  unfold round1 rheInt
  rw [if_neg h, round_eq, h2]

/-- round1 is the identity on integers. -/
theorem round1_int (q : ℚ) (z : ℤ) (h : q = (z : ℚ)) : round1 q = q := by
  subst h
  have hcast : ((z : ℚ)) * 10 = ((z * 10 : ℤ) : ℚ) := by push_cast; ring
  unfold round1 rheInt
  rw [hcast, Int.floor_intCast]
  rw [if_neg (by simp), round_intCast]
  push_cast
  ring

/-! ### Regex machinery shared by the extractor patterns -/

/-- Wordness of the character before the scan position (start of string counts
as a non-word character). -/
def optIsWord : Option Char → Bool
  | none => false
  | some c => isWordChar c

/-- A regex word boundary holds between two positions iff their wordness
differs. -/
def boundaryDiff (prev : Option Char) (c : Char) : Bool := optIsWord prev != isWordChar c

/-- Word boundary at the end of a match: between the last matched character
and the following character (end of string counts as non-word). -/
def boundaryDiffEnd (lastc : Char) (next : Option Char) : Bool :=
  isWordChar lastc != optIsWord next

/-- Consume an exact literal; returns the rest on success. -/
def litMatch : List Char → List Char → Option (List Char)
  | [], cs => some cs
  | _ :: _, [] => none
  | l :: ls, c :: cs => if c == l then litMatch ls cs else none

/-- Greedily consume one optional character satisfying p (regex "X?" where a
failed later parse could not succeed anyway without consuming, which holds at
every use site below). -/
def optCharP (p : Char → Bool) : List Char → List Char
  | [] => []
  | c :: cs => if p c then cs else c :: cs

/-- Consume exactly n digits. Returns (digits, rest). -/
def takeDigits : ℕ → List Char → Option (List Char × List Char)
  | 0, cs => some ([], cs)
  | _ + 1, [] => none
  | n + 1, c :: cs =>
    if c.isDigit then (takeDigits n cs).map (fun p => (c :: p.1, p.2)) else none

/-! ### Email pattern

Pattern from the source: word boundary, one or more characters of the local
class, at-sign, one or more domain characters, a dot, two or more characters
of the class letters-or-pipe (the source writes the character class A-Z|a-z,
so the pipe is a literal member), word boundary. re.findall returns full
matches because the pattern has no capturing group. -/

def isLocalChar (c : Char) : Bool :=
  c.isAlpha || c.isDigit || c == '.' || c == '_' || c == '%' || c == '+' || c == '-'

def isDomChar (c : Char) : Bool := c.isAlpha || c.isDigit || c == '.' || c == '-'

def isTldChar (c : Char) : Bool := c.isAlpha || c == '|'

/-- Try the top-level-domain part with exactly m characters, then the closing
word boundary. -/
def emailTldAt (tl : List Char) (m : ℕ) : Option (List Char) :=
  if m < 2 then none
  else
    let t := tl.take m
    if t.length = m && t.all isTldChar then
      match t.getLast? with
      | some lastc => if boundaryDiffEnd lastc (tl.drop m).head? then some t else none
      | none => none
    else none

/-- Greedy TLD with backtracking: longest first, down to length 2. -/
def emailTldLoop (tl : List Char) : ℕ → Option (List Char)
  | 0 => none
  | m + 1 =>
    match emailTldAt tl (m + 1) with
    | some r => some r
    | none => emailTldLoop tl m

def emailTld (tl : List Char) : Option (List Char) :=
  emailTldLoop tl (tl.takeWhile isTldChar).length

/-- Domain part of exactly d characters, then a literal dot, then the TLD. -/
def emailDomainAt (after : List Char) (d : ℕ) : Option (List Char) :=
  if d = 0 then none
  else
    let dom := after.take d
    if dom.length = d && dom.all isDomChar then
      match after.drop d with
      | '.' :: tl => (emailTld tl).map (fun t => dom ++ '.' :: t)
      | _ => none
    else none

/-- Greedy domain with backtracking: longest first. -/
def emailDomainLoop (after : List Char) : ℕ → Option (List Char)
  | 0 => none
  | d + 1 =>
    match emailDomainAt after (d + 1) with
    | some r => some r
    | none => emailDomainLoop after d

def emailDomain (after : List Char) : Option (List Char) :=
  emailDomainLoop after (after.takeWhile isDomChar).length

/-- Attempt the whole email pattern at the current position (prev is the
character before that position). The greedy local part is forced because the
at-sign is not in the local class. -/
def emailMatchAt (prev : Option Char) (cs : List Char) : Option (List Char) :=
  match cs.takeWhile isLocalChar with
  | [] => none
  | l0 :: lrest =>
    if boundaryDiff prev l0 then
      match cs.drop (l0 :: lrest).length with
      | '@' :: afterAt => (emailDomain afterAt).map (fun d => (l0 :: lrest) ++ '@' :: d)
      | _ => none
    else none

/-- Leftmost match of the email pattern (re.findall followed by taking the
first element). -/
def emailScan : Option Char → List Char → Option (List Char)
  | _, [] => none
  | prev, c :: rest =>
    match emailMatchAt prev (c :: rest) with
    | some m => some m
    | none => emailScan (some c) rest

/-! ### Phone pattern

Pattern from the source: an optional capturing group (optional plus sign, one
to three digits greedy, optional separator), then optional open parenthesis,
three digits, optional close parenthesis, optional separator, three digits,
optional separator, four digits. The only capturing group is the country-code
prefix, so re.findall returns that group's capture (the empty string when the
group did not participate), not the full match. -/

def isSepChar (c : Char) : Bool := c == '-' || c == '.' || pyIsSpace c

/-- The mandatory tail of the phone pattern. Every optional element here is
forced (its character class is disjoint from what must follow), so no
backtracking is needed. Returns (consumed, rest). -/
def phoneTail (cs : List Char) : Option (List Char × List Char) :=
  let o1 : List Char × List Char :=
    match cs with
    | '(' :: r => (['('], r)
    | _ => ([], cs)
  match takeDigits 3 o1.2 with
  | none => none
  | some (d1, r2) =>
    let o2 : List Char × List Char :=
      match r2 with
      | ')' :: r => ([')'], r)
      | _ => ([], r2)
    let s1 : List Char × List Char :=
      match o2.2 with
      | c :: r => if isSepChar c then ([c], r) else ([], o2.2)
      | [] => ([], [])
    match takeDigits 3 s1.2 with
    | none => none
    | some (d2, r4) =>
      let s2 : List Char × List Char :=
        match r4 with
        | c :: r => if isSepChar c then ([c], r) else ([], r4)
        | [] => ([], [])
      match takeDigits 4 s2.2 with
      | none => none
      | some (d3, r6) =>
        some (o1.1 ++ d1 ++ o2.1 ++ s1.1 ++ d2 ++ s2.1 ++ d3, r6)

/-- One attempt of the optional leading group with a fixed digit count d,
followed by the tail. Returns (group capture, tail consumed, rest). -/
def phoneGroupAttempt (plus : List Char) (r0 : List Char) (d : ℕ) :
    Option (List Char × List Char × List Char) :=
  match takeDigits d r0 with
  | none => none
  | some (ds, r1) =>
    let s : List Char × List Char :=
      match r1 with
      | c :: r => if isSepChar c then ([c], r) else ([], r1)
      | [] => ([], [])
    match phoneTail s.2 with
    | none => none
    | some (t, rest) => some (plus ++ ds ++ s.1, t, rest)

/-- Attempt the whole phone pattern at the current position, with regex
priority: group present (one to three digits, greedy) before group absent.
Returns (group capture, full match, rest); an empty group capture is what
re.findall reports when the optional group did not participate. -/
def phoneMatchAt (cs : List Char) : Option (List Char × List Char × List Char) :=
  let p : List Char × List Char :=
    match cs with
    | '+' :: r => (['+'], r)
    | _ => ([], cs)
  match phoneGroupAttempt p.1 p.2 3 with
  | some (g, t, rest) => some (g, g ++ t, rest)
  | none =>
    match phoneGroupAttempt p.1 p.2 2 with
    | some (g, t, rest) => some (g, g ++ t, rest)
    | none =>
      match phoneGroupAttempt p.1 p.2 1 with
      | some (g, t, rest) => some (g, g ++ t, rest)
      | none =>
        match phoneTail cs with
        | some (t, rest) => some ([], t, rest)
        | none => none

/-- Leftmost match of the phone pattern: (group capture, full match). -/
def phoneScanFirst : List Char → Option (List Char × List Char)
  | [] => none
  | c :: rest =>
    match phoneMatchAt (c :: rest) with
    | some (g, whole, _) => some (g, whole)
    | none => phoneScanFirst rest

/-! ### Experience patterns

Three patterns from the source, run over the lowercased text:
  1. digits, optional plus, spaces, "year", optional "s", spaces,
     optional ("of" and spaces), "experience"  (capture: the digits);
  2. the same with "yr" in place of "year";
  3. "experience", spaces, optional colon, spaces, digits, optional plus,
     spaces, "year", optional "s"  (capture: the digits).
Each optional element is forced by the following required element, so the
matchers below are deterministic, matching the regex backtracking outcome. -/

/-- The part of patterns 1 and 2 after the captured digits and optional plus;
yr is the literal "year" or "yr". -/
def expTail12 (yr : List Char) (cs : List Char) : Option (List Char) :=
  let cs1 := cs.dropWhile pyIsSpace
  match litMatch yr cs1 with
  | none => none
  | some cs2 =>
    let cs3 := optCharP (fun c => c == 's') cs2
    let cs4 := cs3.dropWhile pyIsSpace
    let cs5 :=
      match litMatch ['o', 'f'] cs4 with
      | some r => r.dropWhile pyIsSpace
      | none => cs4
    litMatch "experience".toList cs5

/-- Attempt pattern 1 (yr = "year") or pattern 2 (yr = "yr") at the current
position. Returns (captured number, rest after the match). -/
def pat12MatchAt (yr : List Char) (cs : List Char) : Option (ℕ × List Char) :=
  let ds := cs.takeWhile Char.isDigit
  if ds.isEmpty then none
  else
    let cs1 := optCharP (fun c => c == '+') (cs.drop ds.length)
    (expTail12 yr cs1).map (fun rest => (natOfDigits ds, rest))

/-- Attempt pattern 3 at the current position. -/
def pat3MatchAt (cs : List Char) : Option (ℕ × List Char) :=
  match litMatch "experience".toList cs with
  | none => none
  | some cs1 =>
    let cs2 := cs1.dropWhile pyIsSpace
    let cs3 := optCharP (fun c => c == ':') cs2
    let cs4 := cs3.dropWhile pyIsSpace
    let ds := cs4.takeWhile Char.isDigit
    if ds.isEmpty then none
    else
      let cs5 := optCharP (fun c => c == '+') (cs4.drop ds.length)
      let cs6 := cs5.dropWhile pyIsSpace
      match litMatch ['y', 'e', 'a', 'r'] cs6 with
      | none => none
      | some cs7 => some (natOfDigits ds, optCharP (fun c => c == 's') cs7)

/-- re.findall: scan left to right, resuming after each match. The fuel is
the length of the list; every match consumes at least one character. -/
def scanCaptures (matchAt : List Char → Option (ℕ × List Char)) :
    ℕ → List Char → List ℕ
  | 0, _ => []
  | _ + 1, [] => []
  | fuel + 1, c :: rest =>
    match matchAt (c :: rest) with
    | some (n, after) => n :: scanCaptures matchAt fuel after
    | none => scanCaptures matchAt fuel rest

/-- All integer captures of the three experience patterns, in pattern order
then text order, over the lowercased text. -/
def expCaptures (text : String) : List ℕ :=
  let tl := (lowerStr text).toList
  scanCaptures (pat12MatchAt ['y', 'e', 'a', 'r']) tl.length tl ++
    scanCaptures (pat12MatchAt ['y', 'r']) tl.length tl ++
    scanCaptures pat3MatchAt tl.length tl

/-! ### Degree patterns

Four alternation patterns of literals, run over the lowercased text. The
greedy optional apostrophe-s in the first alternative of patterns 1 and 2 is
expanded into two alternatives, longer first, preserving regex priority. -/

/-- First alternative in the list that is a prefix of the position; returns
(matched literal, rest). -/
def altLitMatchAt : List (List Char) → List Char → Option (List Char × List Char)
  | [], _ => none
  | a :: alts, cs =>
    match litMatch a cs with
    | some r => some (a, r)
    | none => altLitMatchAt alts cs

/-- re.findall for an alternation-of-literals pattern. -/
def scanAlts (alts : List (List Char)) : ℕ → List Char → List String
  | 0, _ => []
  | _ + 1, [] => []
  | fuel + 1, c :: rest =>
    match altLitMatchAt alts (c :: rest) with
    | some (m, after) => String.mk m :: scanAlts alts fuel after
    | none => scanAlts alts fuel rest

def degreeAlts1 : List (List Char) :=
  ["bachelor\x27s".toList, "bachelor".toList, "bs".toList, "ba".toList,
   "b.s.".toList, "b.a.".toList]

def degreeAlts2 : List (List Char) :=
  ["master\x27s".toList, "master".toList, "ms".toList, "ma".toList,
   "m.s.".toList, "m.a.".toList]

def degreeAlts3 : List (List Char) :=
  ["phd".toList, "ph.d.".toList, "doctorate".toList]

def degreeAlts4 : List (List Char) := ["mba".toList, "m.b.a.".toList]

/-! ### Skill matching: word-boundary exact phrase -/

/-- Search for the phrase at every position of the text, requiring a word
boundary before the first and after the last phrase character. -/
def wbMatchAux (phr : List Char) (firstC lastC : Char) :
    Option Char → List Char → Bool
  | _, [] => false
  | prev, c :: rest =>
    (phr.isPrefixOf (c :: rest) && boundaryDiff prev firstC &&
      boundaryDiffEnd lastC ((c :: rest).drop phr.length).head?) ||
    wbMatchAux phr firstC lastC (some c) rest

/-- The source's pattern: word boundary, the escaped phrase, word boundary,
searched anywhere in the text (re.search). -/
def wbMatch : List Char → List Char → Bool
  | [], _ => false
  | p0 :: prest, text => wbMatchAux (p0 :: prest) p0 ((p0 :: prest).getLastD p0) none text

/-! ### Data model -/

structure ContactInfo where
  email : String
  phone : String
deriving Repr, DecidableEq

structure SkillsInfo where
  categorized_skills : List (String × List String)
  all_skills : List String
  total_skills_found : ℕ
deriving Repr, DecidableEq

structure ExperienceInfo where
  years_experience : ℕ
  positions : List String
deriving Repr, DecidableEq

structure EducationInfo where
  degrees : List String
  institutions : List String
  fields : List String
deriving Repr, DecidableEq

structure ParsedResume where
  filename : String
  contact_info : ContactInfo
  skills : SkillsInfo
  experience : ExperienceInfo
  education : EducationInfo
  full_text : String
  parsing_success : Bool
  error : String
deriving Repr, DecidableEq

/-! ### Extractor -/

/-- The fixed skill taxonomy from the source, in declaration order. -/
def skill_keywords : List (String × List String) :=
  [("python", ["python", "django", "flask", "fastapi", "pandas", "numpy", "jupyter"]),
   ("javascript", ["javascript", "js", "node.js", "react", "vue", "angular", "typescript"]),
   ("java", ["java", "spring", "hibernate", "maven", "gradle"]),
   ("machine_learning", ["machine learning", "ml", "artificial intelligence", "ai", "tensorflow", "pytorch"]),
   ("databases", ["sql", "mysql", "postgresql", "mongodb", "redis"]),
   ("cloud", ["aws", "azure", "gcp", "docker", "kubernetes"]),
   ("web_dev", ["html", "css", "rest api", "graphql", "microservices"]),
   ("data_science", ["data science", "analytics", "visualization", "statistics"]),
   ("mobile", ["android", "ios", "react native", "flutter"]),
   ("devops", ["ci/cd", "jenkins", "git", "linux"])]

/-- extract_contact_info from the source: first email match (full match) and
first phone match (group capture, per re.findall with one capturing group),
empty string when there is none. -/
def extract_contact_info (text : String) : ContactInfo :=
  { email := ((emailScan none text.toList).map String.mk).getD "",
    phone := ((phoneScanFirst text.toList).map (fun p => String.mk p.1)).getD "" }

/-- extract_skills from the source. Python's list(set(...)) is modelled by
List.dedup; the claims use only set-like facts about it. -/
def extract_skills (text : String) : SkillsInfo :=
  let tl := (lowerStr text).toList
  let perCat := skill_keywords.map
    (fun p => (p.1, p.2.filter (fun s => wbMatch (lowerStr s).toList tl)))
  let allFound := (perCat.map Prod.snd).flatten
  { categorized_skills := perCat.filter (fun p => !p.2.isEmpty),
    all_skills := allFound.dedup,
    total_skills_found := allFound.dedup.length }

/-- extract_experience from the source: the maximum capture, zero when there
is none (for naturals, Python's max-of-nonempty-or-zero is the fold below). -/
def extract_experience (text : String) : ExperienceInfo :=
  { years_experience := (expCaptures text).foldl Nat.max 0,
    positions := [] }

/-- extract_education from the source: all degree-pattern matches over the
lowercased text, appended in pattern order, duplicates preserved. -/
def extract_education (text : String) : EducationInfo :=
  let tl := (lowerStr text).toList
  { degrees :=
      scanAlts degreeAlts1 tl.length tl ++ scanAlts degreeAlts2 tl.length tl ++
        scanAlts degreeAlts3 tl.length tl ++ scanAlts degreeAlts4 tl.length tl,
    institutions := [],
    fields := [] }

/-- parse_resume from the source, after the external document-decoding
collaborator has produced the text ("Unsupported file format" is the
sentinel for an unrecognized extension). The Python failure dict carries
only filename, error and parsing_success; the remaining fields are modelled
as present-but-empty. On success the source has no error key; modelled as
the empty string. -/
def parse_resume (text filename : String) : ParsedResume :=
  if text = "" ∨ text = "Unsupported file format" then
    { filename := filename,
      contact_info := { email := "", phone := "" },
      skills := { categorized_skills := [], all_skills := [], total_skills_found := 0 },
      experience := { years_experience := 0, positions := [] },
      education := { degrees := [], institutions := [], fields := [] },
      full_text := "",
      parsing_success := false,
      error := "Could not extract text from file" }
  else
    { filename := filename,
      contact_info := extract_contact_info text,
      skills := extract_skills text,
      experience := extract_experience text,
      education := extract_education text,
      full_text := text,
      parsing_success := true,
      error := "" }

/-! ### Scorer -/

structure SkillsMatch where
  essential_score : ℚ
  preferred_score : ℚ
  overall_skills_score : ℚ
  essential_matches : ℕ
  preferred_matches : ℕ
deriving Repr, DecidableEq

structure JobRequirements where
  essential_skills : List String
  preferred_skills : List String
  minimum_experience : Option ℚ
  education_requirements : String
  job_description : String
deriving Repr, DecidableEq

structure ScoreResult where
  overall_score : ℚ
  skills_breakdown : SkillsMatch
  experience_score : ℚ
  education_score : ℚ
  semantic_score : ℚ
  candidate_name : String
deriving Repr, DecidableEq

/-- The source's job-skill normalization: keep entries that are nonempty
after stripping, then lowercase-and-strip each. -/
def prepJobSkills (l : List String) : List String :=
  (l.filter (fun s => !(pyStrip s == ""))).map (fun s => pyStrip (lowerStr s))

/-- The source's match test for one normalized job skill against the
lowercased (not stripped) resume skills: bidirectional substring. -/
def skillMatchedBy (resume_lower : List String) (skill : String) : Bool :=
  resume_lower.any (fun r => pyIn skill r || pyIn r skill)

/-- calculate_skills_match from the source. The dict fields are rounded to
one decimal; the combined score is computed from the unrounded percentages
and then rounded. -/
def calculate_skills_match (resume_skills job_essential job_preferred : List String) :
    SkillsMatch :=
  let resume_lower := resume_skills.map lowerStr
  let essential_lower := prepJobSkills job_essential
  let preferred_lower := prepJobSkills job_preferred
  let essential_matches := essential_lower.countP (fun s => skillMatchedBy resume_lower s)
  let preferred_matches := preferred_lower.countP (fun s => skillMatchedBy resume_lower s)
  let essential_score : ℚ :=
    if essential_lower = [] then 100
    else ((essential_matches : ℚ) / (essential_lower.length : ℚ)) * 100
  let preferred_score : ℚ :=
    if preferred_lower = [] then 100
    else ((preferred_matches : ℚ) / (preferred_lower.length : ℚ)) * 100
  let overall := essential_score * (0.7 : ℚ) + preferred_score * (0.3 : ℚ)
  { essential_score := round1 essential_score,
    preferred_score := round1 preferred_score,
    overall_skills_score := round1 overall,
    essential_matches := essential_matches,
    preferred_matches := preferred_matches }

/-- calculate_experience_match from the source. required is None (absent)
or a number; Python's "float(required) if required else 0" maps both None
and 0 to 0, i.e. Option.getD. The early return 100 is unrounded; the other
two branches are rounded to one decimal. -/
def calculate_experience_match (resume_years : ℚ) (required : Option ℚ) : ℚ :=
  let required_years := required.getD 0
  if required_years = 0 then 100
  else if required_years ≤ resume_years then
    round1 (min 100 (80 + (resume_years - required_years) * 5))
  else round1 ((resume_years / required_years) * 80)

/-- calculate_education_match from the source. -/
def calculate_education_match (degrees : List String) (job_education_req : String) : ℚ :=
  if job_education_req = "" ∨ lowerStr job_education_req = "none" then 100
  else
    let resume_degrees := degrees.map lowerStr
    if resume_degrees.any (fun d => pyIn d (lowerStr job_education_req)) then 90
    else if resume_degrees ≠ [] then 70
    else 40

/-- The lowercase whitespace-token set of a text. -/
def tokensOf (s : String) : Finset String := (pyWords (lowerStr s)).toFinset

/-- calculate_semantic_similarity from the source: Jaccard similarity of the
token sets, times 100, rounded to one decimal; 0 when the union is empty.
The source's try/except around these pure set operations never fires. -/
def calculate_semantic_similarity (resume_text job_description : String) : ℚ :=
  if (tokensOf resume_text ∪ tokensOf job_description).card = 0 then 0
  else
    round1 ((((tokensOf resume_text ∩ tokensOf job_description).card : ℚ) /
      ((tokensOf resume_text ∪ tokensOf job_description).card : ℚ)) * 100)

/-- calculate_overall_score from the source, on a successfully parsed
resume: the weighted sum uses the already-rounded sub-scores from the
breakdown dict, and is itself rounded to one decimal. -/
def calculate_overall_score (resume : ParsedResume) (job : JobRequirements) : ScoreResult :=
  let skills_match :=
    calculate_skills_match resume.skills.all_skills job.essential_skills job.preferred_skills
  let experience_score :=
    calculate_experience_match (resume.experience.years_experience : ℚ) job.minimum_experience
  let education_score :=
    calculate_education_match resume.education.degrees job.education_requirements
  let semantic_score :=
    calculate_semantic_similarity resume.full_text job.job_description
  { overall_score :=
      round1 (skills_match.overall_skills_score * (0.5 : ℚ) + experience_score * (0.2 : ℚ) +
        education_score * (0.1 : ℚ) + semantic_score * (0.2 : ℚ)),
    skills_breakdown := skills_match,
    experience_score := experience_score,
    education_score := education_score,
    semantic_score := semantic_score,
    candidate_name := resume.filename }

/-! ### Spec-side model for the skills factor (for comparison with the code)

The spec says both the resume skills and the job skills are normalized to
lowercase AND trimmed; the code trims only the job skills. The definition
below follows the spec's words, to be compared against
calculate_skills_match. -/

/-- Modelled from the spec: "Normalize every resume skill and every
job-listed skill (essential and preferred, separately) to lowercase,
trimmed. A job skill is considered matched if it is a substring of, or
contains as a substring, at least one resume skill. essential_pct =
matched_essential / size of essential * 100 (100 if the job lists no
essential skills). Same rule for preferred_pct. combined_pct =
0.7*essential_pct + 0.3*preferred_pct." -/
def specSkillsCombined (resume ess pref : List String) : ℚ :=
  let r := resume.map (fun s => pyStrip (lowerStr s))
  let e := ess.map (fun s => pyStrip (lowerStr s))
  let p := pref.map (fun s => pyStrip (lowerStr s))
  let epct : ℚ :=
    if e = [] then 100
    else ((e.countP (fun j => r.any (fun rs => pyIn j rs || pyIn rs j)) : ℚ) /
      (e.length : ℚ)) * 100
  let ppct : ℚ :=
    if p = [] then 100
    else ((p.countP (fun j => r.any (fun rs => pyIn j rs || pyIn rs j)) : ℚ) /
      (p.length : ℚ)) * 100
  (0.7 : ℚ) * epct + (0.3 : ℚ) * ppct

/-! ### Helper lemmas -/

/-- The combined skills score, with the let-bindings of the definition
exposed. -/
theorem csm_overall (r e p : List String) :
    (calculate_skills_match r e p).overall_skills_score =
      round1 ((if prepJobSkills e = [] then (100 : ℚ)
          else (((prepJobSkills e).countP (fun s => skillMatchedBy (r.map lowerStr) s) : ℚ) /
            ((prepJobSkills e).length : ℚ)) * 100) * (0.7 : ℚ) +
        (if prepJobSkills p = [] then (100 : ℚ)
          else (((prepJobSkills p).countP (fun s => skillMatchedBy (r.map lowerStr) s) : ℚ) /
            ((prepJobSkills p).length : ℚ)) * 100) * (0.3 : ℚ)) := rfl

/-- The reported essential percentage, with the let-bindings exposed. -/
theorem csm_essential (r e p : List String) :
    (calculate_skills_match r e p).essential_score =
      round1 (if prepJobSkills e = [] then (100 : ℚ)
        else (((prepJobSkills e).countP (fun s => skillMatchedBy (r.map lowerStr) s) : ℚ) /
          ((prepJobSkills e).length : ℚ)) * 100) := rfl

theorem degrees_any_iff (degrees : List String) (req : String) :
    ((degrees.map lowerStr).any (fun d => pyIn d (lowerStr req)) = true) ↔
      ∃ d ∈ degrees, pyIn (lowerStr d) (lowerStr req) = true := by
  simp [List.any_map, List.any_eq_true, Function.comp]

theorem foldl_max_init_le (l : List ℕ) (a : ℕ) : a ≤ l.foldl Nat.max a := by
  induction l generalizing a with
  | nil => exact le_refl a
  | cons b t ih => exact le_trans (Nat.le_max_left a b) (ih (Nat.max a b))

theorem mem_le_foldl_max (l : List ℕ) (a : ℕ) : ∀ n ∈ l, n ≤ l.foldl Nat.max a := by
  induction l generalizing a with
  | nil => intro n hn; cases hn
  | cons b t ih =>
    intro n hn
    rcases List.mem_cons.mp hn with rfl | hn
    · exact le_trans (Nat.le_max_right a n) (foldl_max_init_le t (Nat.max a n))
    · exact ih (Nat.max a b) n hn

theorem foldl_max_mem (l : List ℕ) (a : ℕ) :
    l.foldl Nat.max a = a ∨ l.foldl Nat.max a ∈ l := by
  induction l generalizing a with
  | nil => exact Or.inl rfl
  | cons b t ih =>
    rcases ih (Nat.max a b) with h | h
    · rcases Nat.le_total a b with hab | hab
      · refine Or.inr ?_
        rw [List.foldl_cons, h]
        have hm : Nat.max a b = b := Nat.max_eq_right hab
        rw [hm]
        exact List.mem_cons_self b t
      · refine Or.inl ?_
        rw [List.foldl_cons, h]
        exact Nat.max_eq_left hab
    · exact Or.inr (List.mem_cons_of_mem b h)

/-! ### Claim theorems -/

/-- C1: the overall score equals 0.5*combined_pct + 0.2*experience_pct +
0.1*education_pct + 0.2*semantic_pct (the reported sub-scores), rounded to
one decimal place; at combined=80, experience=100, education=90,
semantic=50 that value is 79.0. -/
theorem c1_overall_score_formula (resume : ParsedResume) (job : JobRequirements) :
    ((calculate_overall_score resume job).overall_score =
      round1 ((0.5 : ℚ) * (calculate_overall_score resume job).skills_breakdown.overall_skills_score +
        (0.2 : ℚ) * (calculate_overall_score resume job).experience_score +
        (0.1 : ℚ) * (calculate_overall_score resume job).education_score +
        (0.2 : ℚ) * (calculate_overall_score resume job).semantic_score)) ∧
    round1 ((0.5 : ℚ) * 80 + (0.2 : ℚ) * 100 + (0.1 : ℚ) * 90 + (0.2 : ℚ) * 50) = 79 := by
  constructor
  · simp only [calculate_overall_score]
    congr 1
    ring
  · have h : (0.5 : ℚ) * 80 + (0.2 : ℚ) * 100 + (0.1 : ℚ) * 90 + (0.2 : ℚ) * 50 =
        ((79 : ℤ) : ℚ) := by norm_num
    rw [round1_int _ 79 h, h]
    norm_num

/-- C2 (counterexample): under the spec's rule, which trims both sides, the
job skill "pythons" matches the resume skill " python " (its trimmed form
"python" is a substring of "pythons"), so the spec-side combined score is
100; the code lowercases but does not trim resume skills, finds no match,
and reports 30 (0.7*0 + 0.3*100). -/
theorem c2_counterexample :
    specSkillsCombined [" python "] ["pythons"] [] = 100 ∧
    (calculate_skills_match [" python "] ["pythons"] []).overall_skills_score = 30 := by
  constructor
  · show (0.7 : ℚ) * _ + (0.3 : ℚ) * _ = 100
    have h1 : (["pythons"].map (fun s => pyStrip (lowerStr s))) = ["pythons"] := by decide
    have h2 : (["pythons"].countP (fun j =>
        ([" python "].map (fun s => pyStrip (lowerStr s))).any
          (fun rs => pyIn j rs || pyIn rs j))) = 1 := by decide
    simp only [specSkillsCombined, h1, h2, List.map_nil]
    norm_num
  · rw [csm_overall]
    have h1 : prepJobSkills ["pythons"] = ["pythons"] := by decide
    have h2 : prepJobSkills [] = [] := by decide
    have h3 : (["pythons"].countP
        (fun s => skillMatchedBy ([" python "].map lowerStr) s)) = 0 := by decide
    rw [h1, h2, h3]
    norm_num
    rw [round1_int _ 30 (by norm_num)]

/-- C2 (amended): resume skills are lowercased but not trimmed; job skills
are dropped when whitespace-only and otherwise lowercased and trimmed; a
surviving job skill is matched iff it is a substring of, or contains as a
substring, at least one lowercased resume skill; the percentages are
matched/over-count*100 with 100 when no job skill survives; the combined
score is 0.7*essential + 0.3*preferred on the unrounded percentages,
reported rounded to one decimal; a job with no listed skills scores 100
regardless of the resume. -/
theorem c2_amended (resume ess pref : List String) :
    ((calculate_skills_match resume ess pref).essential_matches =
      (prepJobSkills ess).countP (fun s => skillMatchedBy (resume.map lowerStr) s)) ∧
    (∀ j : String, skillMatchedBy (resume.map lowerStr) j = true ↔
      ∃ r ∈ resume, (pyIn j (lowerStr r) = true ∨ pyIn (lowerStr r) j = true)) ∧
    (prepJobSkills ess = [] → (calculate_skills_match resume ess pref).essential_score = 100) ∧
    ((calculate_skills_match resume ess pref).overall_skills_score =
      round1 ((if prepJobSkills ess = [] then (100 : ℚ)
          else (((prepJobSkills ess).countP (fun s => skillMatchedBy (resume.map lowerStr) s) : ℚ) /
            ((prepJobSkills ess).length : ℚ)) * 100) * (0.7 : ℚ) +
        (if prepJobSkills pref = [] then (100 : ℚ)
          else (((prepJobSkills pref).countP (fun s => skillMatchedBy (resume.map lowerStr) s) : ℚ) /
            ((prepJobSkills pref).length : ℚ)) * 100) * (0.3 : ℚ))) ∧
    (calculate_skills_match resume [] []).overall_skills_score = 100 := by
  refine ⟨rfl, ?_, ?_, csm_overall resume ess pref, ?_⟩
  · intro j
    simp [skillMatchedBy, List.any_eq_true, List.mem_map]
  · intro h
    rw [csm_essential, if_pos h, round1_int _ 100 (by norm_num)]
  · rw [csm_overall]
    have h : prepJobSkills [] = [] := rfl
    rw [h, if_pos rfl]
    have h2 : (100 : ℚ) * 0.7 + 100 * 0.3 = ((100 : ℤ) : ℚ) := by norm_num
    rw [h2, round1_int _ 100 rfl]
    norm_num

/-- C2 (witness): a whitespace-only essential-skill entry is filtered out,
so the essential percentage is vacuously 100. -/
theorem c2_amended_witness :
    (calculate_skills_match ["python"] ["  "] ["js"]).essential_score = 100 :=
  (c2_amended ["python"] ["  "] ["js"]).2.2.1 (by decide)

/-- C3 (counterexample): for candidate years 1 and required years 3 the
code returns round(80/3, 1) = 26.7, not (1/3)*80 = 26.666..., so the
claimed unrounded formula does not hold as stated. -/
theorem c3_counterexample :
    calculate_experience_match 1 (some 3) = 267 / 10 ∧ ((1 : ℚ) / 3) * 80 ≠ 267 / 10 := by
  constructor
  · unfold calculate_experience_match
    norm_num [Option.getD]
    rw [round1_eval _ 267 (by norm_num) (by norm_num)]
    norm_num
  · norm_num

/-- C3 (amended): with the result rounded to one decimal place (Python
round, half to even), the experience sub-score is 100 when the requirement
is absent or zero; round1(min(100, 80 + 5*(c-r))) when c >= r; and
round1((c/r)*80) when c < r; in particular r=10, c=5 gives 40.0 and r=2,
c=10 gives 100 (capped). -/
theorem c3_amended (c : ℚ) (r : Option ℚ) (_hc : 0 ≤ c) :
    (r.getD 0 = 0 → calculate_experience_match c r = 100) ∧
    (r.getD 0 ≠ 0 → r.getD 0 ≤ c →
      calculate_experience_match c r = round1 (min 100 (80 + (c - r.getD 0) * 5))) ∧
    (r.getD 0 ≠ 0 → c < r.getD 0 →
      calculate_experience_match c r = round1 ((c / r.getD 0) * 80)) ∧
    calculate_experience_match 5 (some 10) = 40 ∧
    calculate_experience_match 10 (some 2) = 100 := by
  refine ⟨fun h => ?_, fun h1 h2 => ?_, fun h1 h2 => ?_, ?_, ?_⟩
  · simp [calculate_experience_match, h]
  · simp [calculate_experience_match, h1, h2]
  · simp [calculate_experience_match, h1, not_le.mpr h2]
  · unfold calculate_experience_match
    norm_num [Option.getD]
    rw [round1_int _ 40 (by norm_num)]
  · unfold calculate_experience_match
    norm_num [Option.getD]
    rw [round1_int _ 100 (by norm_num)]

/-- C3 (witness): concrete instances of the three branches. -/
theorem c3_amended_witness :
    calculate_experience_match 0 (some 0) = 100 ∧ calculate_experience_match 5 (some 10) = 40 :=
  ⟨(c3_amended 0 (some 0) (by norm_num)).1 (by norm_num),
   (c3_amended 5 (some 10) (by norm_num)).2.2.2.1⟩

/-- C4: the education sub-score is exactly one of four tiers: 100 when the
requirement is empty or the case-insensitive literal "none"; else 90 when
some extracted degree appears case-insensitively as a substring of the
requirement; else 70 when the candidate has at least one degree; else 40;
in particular requirement "Master's preferred" with degrees ["master's"]
yields 90. -/
theorem c4_education_tiers (degrees : List String) (req : String) :
    ((req = "" ∨ lowerStr req = "none") → calculate_education_match degrees req = 100) ∧
    (¬(req = "" ∨ lowerStr req = "none") →
      (∃ d ∈ degrees, pyIn (lowerStr d) (lowerStr req) = true) →
      calculate_education_match degrees req = 90) ∧
    (¬(req = "" ∨ lowerStr req = "none") →
      (¬∃ d ∈ degrees, pyIn (lowerStr d) (lowerStr req) = true) →
      degrees ≠ [] → calculate_education_match degrees req = 70) ∧
    (¬(req = "" ∨ lowerStr req = "none") →
      degrees = [] → calculate_education_match degrees req = 40) ∧
    calculate_education_match ["master\x27s"] "Master\x27s preferred" = 90 := by
  refine ⟨fun h => ?_, fun h hex => ?_, fun h hnex hne => ?_, fun h hnil => ?_, rfl⟩
  · simp only [calculate_education_match]
    rw [if_pos h]
  · simp only [calculate_education_match]
    rw [if_neg h, if_pos ((degrees_any_iff degrees req).mpr hex)]
  · simp only [calculate_education_match]
    rw [if_neg h, if_neg (fun hc => hnex ((degrees_any_iff degrees req).mp hc)),
      if_pos (by simpa [List.map_eq_nil_iff] using hne)]
  · subst hnil
    simp only [calculate_education_match]
    rw [if_neg h]
    simp

/-- C4 (witness): a candidate with a degree not mentioned in the
requirement lands in the 70 tier. -/
theorem c4_education_tiers_witness :
    calculate_education_match ["bs"] "PhD required" = 70 :=
  (c4_education_tiers ["bs"] "PhD required").2.2.1 (by decide) (by decide) (by decide)

/-- C5 (counterexample): the claim asserts both that a zero token union
yields 0 and that identical texts yield 100; for two empty texts both
texts are identical AND the union is empty, and the code returns 0, so
"identical texts yield 100" is false as stated. -/
theorem c5_counterexample : calculate_semantic_similarity "" "" ≠ 100 := by
  unfold calculate_semantic_similarity
  rw [if_pos (by decide)]
  norm_num

/-- C5 (amended): the semantic sub-score is the Jaccard similarity of the
lowercase whitespace-token sets times 100, rounded to one decimal place;
it is symmetric, always in [0,100], equals 0 when the union of the token
sets is empty, and equals 100 for identical texts whose token set is
nonempty. -/
theorem c5_amended (a b : String) :
    (calculate_semantic_similarity a b = calculate_semantic_similarity b a) ∧
    (0 ≤ calculate_semantic_similarity a b ∧ calculate_semantic_similarity a b ≤ 100) ∧
    ((tokensOf a ∪ tokensOf b) = ∅ → calculate_semantic_similarity a b = 0) ∧
    (tokensOf a ≠ ∅ → calculate_semantic_similarity a a = 100) := by
  refine ⟨?_, ⟨?_, ?_⟩, fun h => ?_, fun h => ?_⟩
  · unfold calculate_semantic_similarity
    rw [Finset.union_comm (tokensOf a), Finset.inter_comm (tokensOf a)]
  · unfold calculate_semantic_similarity
    split_ifs with hc
    · exact le_refl 0
    · refine round1_nonneg ?_
      positivity
  · unfold calculate_semantic_similarity
    split_ifs with hc
    · norm_num
    · refine round1_le_100 ?_
      have hsub : (tokensOf a ∩ tokensOf b).card ≤ (tokensOf a ∪ tokensOf b).card :=
        Finset.card_le_card (le_trans Finset.inter_subset_left Finset.subset_union_left)
      have hpos : (0 : ℚ) < ((tokensOf a ∪ tokensOf b).card : ℚ) := by
        have : 0 < (tokensOf a ∪ tokensOf b).card := Nat.pos_of_ne_zero hc
        exact_mod_cast this
      have hdiv : ((tokensOf a ∩ tokensOf b).card : ℚ) /
          ((tokensOf a ∪ tokensOf b).card : ℚ) ≤ 1 := by
        rw [div_le_one hpos]
        exact_mod_cast hsub
      nlinarith
  · unfold calculate_semantic_similarity
    rw [if_pos (by rw [h]; simp)]
  · unfold calculate_semantic_similarity
    rw [Finset.union_self, Finset.inter_self]
    have hcard : (tokensOf a).card ≠ 0 := by
      simpa [Finset.card_eq_zero] using h
    rw [if_neg hcard]
    have hone : ((tokensOf a).card : ℚ) / ((tokensOf a).card : ℚ) = 1 :=
      div_self (by exact_mod_cast hcard)
    rw [hone, one_mul, round1_int _ 100 (by norm_num)]

/-- C5 (witness): a concrete nonempty text scores 100 against itself. -/
theorem c5_amended_witness :
    tokensOf "alpha beta" ≠ ∅ ∧ calculate_semantic_similarity "alpha beta" "alpha beta" = 100 :=
  ⟨by decide, (c5_amended "alpha beta" "alpha beta").2.2.2 (by decide)⟩

/-- C6 (counterexample): on empty input text the code returns a failure
record (parsing_success = false), not a successful zero-valued parse as the
claim states. -/
theorem c6_counterexample : (parse_resume "" "resume.txt").parsing_success = false := rfl

/-- C6 (amended): empty text, like the unsupported-format sentinel, is
treated as a failed extraction: parse_resume returns ok=false with the
descriptive error "Could not extract text from file"; any other text
yields ok=true with the extracted fields populated and an empty error. -/
theorem c6_amended (text filename : String) :
    ((parse_resume "" filename).parsing_success = false) ∧
    ((parse_resume "" filename).error = "Could not extract text from file") ∧
    ((parse_resume "Unsupported file format" filename).parsing_success = false) ∧
    (text ≠ "" → text ≠ "Unsupported file format" →
      (parse_resume text filename).parsing_success = true ∧
      (parse_resume text filename).error = "" ∧
      (parse_resume text filename).full_text = text) := by
  refine ⟨rfl, rfl, rfl, fun h1 h2 => ?_⟩
  simp [parse_resume, h1, h2]

/-- C6 (witness): concrete success and failure cases. -/
theorem c6_amended_witness :
    (parse_resume "hello" "a.txt").parsing_success = true ∧
    (parse_resume "" "a.txt").parsing_success = false :=
  ⟨((c6_amended "hello" "a.txt").2.2.2 (by decide) (by decide)).1,
   (c6_amended "hello" "a.txt").1⟩

/-- C7: the phone regex wraps only the optional country-code prefix in a
capturing group, and re.findall returns group captures, so the code stores
the group capture (here the empty string) as the phone even though the
pattern's first full match is "123-456-7890"; the email side, whose
pattern has no group, does report the first full match. -/
theorem c7_phone_group_bug :
    (extract_contact_info "Call 123-456-7890 now").phone = "" ∧
    ((phoneScanFirst "Call 123-456-7890 now".toList).map (fun p => String.mk p.2)) =
      some "123-456-7890" ∧
    (extract_contact_info "jo@ab.cd or flo@ef.gh").email = "jo@ab.cd" := by
  exact ⟨by decide, by decide, by decide⟩

/-- C8: a taxonomy phrase is in the extracted skill set iff it occurs in
the case-folded text as a word-boundary exact phrase; the set has no
duplicates; "pythonic" does not match the skill "python" while "I use
Python daily" does. -/
theorem c8_skill_word_boundary (text s : String) :
    (s ∈ (extract_skills text).all_skills ↔
      ∃ p ∈ skill_keywords, s ∈ p.2 ∧
        wbMatch (lowerStr s).toList (lowerStr text).toList = true) ∧
    (extract_skills text).all_skills.Nodup ∧
    "python" ∈ (extract_skills "I use Python daily").all_skills ∧
    "python" ∉ (extract_skills "pythonic").all_skills := by
  refine ⟨?_, ?_, by decide, by decide⟩
  · simp only [extract_skills, List.mem_dedup, List.mem_flatten, List.map_map,
      List.mem_map, List.mem_filter]
    constructor
    · rintro ⟨l, ⟨p, hp, rfl⟩, hs⟩
      rcases List.mem_filter.mp hs with ⟨hsp, hw⟩
      exact ⟨p, hp, hsp, hw⟩
    · rintro ⟨p, hp, hsp, hw⟩
      exact ⟨p.2.filter (fun s => wbMatch (lowerStr s).toList (lowerStr text).toList),
        ⟨p, hp, rfl⟩, List.mem_filter.mpr ⟨hsp, hw⟩⟩
  · exact List.nodup_dedup _

/-- C9: the extracted years of experience is the maximum over all integer
captures of the three experience patterns across all their occurrences
(zero when there are none); "3 years experience ... 7+ years experience"
yields 7. -/
theorem c9_experience_max (text : String) :
    (∀ n ∈ expCaptures text, n ≤ (extract_experience text).years_experience) ∧
    (expCaptures text = [] → (extract_experience text).years_experience = 0) ∧
    (expCaptures text ≠ [] → (extract_experience text).years_experience ∈ expCaptures text) ∧
    (extract_experience "3 years experience and 7+ years experience").years_experience = 7 := by
  have hy : (extract_experience text).years_experience = (expCaptures text).foldl Nat.max 0 := rfl
  refine ⟨fun n hn => ?_, fun h => ?_, fun h => ?_, by decide⟩
  · rw [hy]
    exact mem_le_foldl_max (expCaptures text) 0 n hn
  · rw [hy, h]
    rfl
  · rw [hy]
    rcases foldl_max_mem (expCaptures text) 0 with h0 | hmem
    · rw [h0]
      cases hl : expCaptures text with
      | nil => exact absurd hl h
      | cons x xs =>
        have hx : x ≤ (expCaptures text).foldl Nat.max 0 :=
          mem_le_foldl_max (expCaptures text) 0 x (by rw [hl]; exact List.mem_cons_self x xs)
        rw [h0] at hx
        have hx0 : x = 0 := Nat.le_zero.mp hx
        rw [← hx0]
        exact List.mem_cons_self x xs
    · exact hmem

/-- C9 (witness): a text matched by the "yrs" pattern has a nonempty
capture list containing the result. -/
theorem c9_experience_max_witness :
    expCaptures "5 yrs experience" ≠ [] ∧
    (extract_experience "5 yrs experience").years_experience ∈ expCaptures "5 yrs experience" :=
  ⟨by decide, (c9_experience_max "5 yrs experience").2.2.1 (by decide)⟩

/-- C10: the categorized mapping has a key for a taxonomy category iff at
least one of that category's phrases matches the text; entries never carry
an empty phrase list (categories with no match are absent, not empty). -/
theorem c10_categorized_keys (text cat : String) :
    (cat ∈ (extract_skills text).categorized_skills.map Prod.fst ↔
      ∃ p ∈ skill_keywords, p.1 = cat ∧
        ∃ s ∈ p.2, wbMatch (lowerStr s).toList (lowerStr text).toList = true) ∧
    (∀ q ∈ (extract_skills text).categorized_skills, q.2 ≠ []) := by
  have hcs : (extract_skills text).categorized_skills =
      (skill_keywords.map (fun p =>
        (p.1, p.2.filter (fun s => wbMatch (lowerStr s).toList (lowerStr text).toList)))).filter
        (fun p => !p.2.isEmpty) := rfl
  constructor
  · rw [hcs]
    constructor
    · intro hcat
      rcases List.mem_map.mp hcat with ⟨q, hq, hq1⟩
      rcases List.mem_filter.mp hq with ⟨hqm, hne⟩
      rcases List.mem_map.mp hqm with ⟨p, hp, rfl⟩
      refine ⟨p, hp, hq1, ?_⟩
      have hne2 : p.2.filter (fun s => wbMatch (lowerStr s).toList (lowerStr text).toList) ≠ [] := by
        simpa [List.isEmpty_iff] using hne
      rcases List.exists_mem_of_ne_nil _ hne2 with ⟨s, hs⟩
      rcases List.mem_filter.mp hs with ⟨hsp, hw⟩
      exact ⟨s, hsp, hw⟩
    · rintro ⟨p, hp, hpc, s, hs, hw⟩
      refine List.mem_map.mpr
        ⟨(p.1, p.2.filter (fun s => wbMatch (lowerStr s).toList (lowerStr text).toList)),
          ?_, hpc⟩
      refine List.mem_filter.mpr ⟨List.mem_map.mpr ⟨p, hp, rfl⟩, ?_⟩
      have hmem : s ∈ p.2.filter (fun s => wbMatch (lowerStr s).toList (lowerStr text).toList) :=
        List.mem_filter.mpr ⟨hs, hw⟩
      simpa [List.isEmpty_iff] using List.ne_nil_of_mem hmem
  · intro q hq
    rw [hcs] at hq
    rcases List.mem_filter.mp hq with ⟨_, hne⟩
    simpa [List.isEmpty_iff] using hne

/-- C10 (witness): a concrete categorized entry is present and nonempty. -/
theorem c10_categorized_keys_witness :
    ("python", ["python"]) ∈ (extract_skills "python rocks").categorized_skills ∧
    (["python"] : List String) ≠ [] :=
  ⟨by decide,
   (c10_categorized_keys "python rocks" "python").2 ("python", ["python"]) (by decide)⟩

end ResumeScreening
